import Mathlib

/-!
Verification development for the payment-gated write path of the
maidsafe/stableset_net repository.

The Rust sources are shallowly embedded: each Lean definition mirrors one
Rust item (file and function named in its comment).  File-system state
(the spend partitions) is modelled as association lists keyed by address;
machine integers, hashes and identifiers are modelled as Nat; fallible
operations return Except or an Option error component.
-/

namespace StableSet

/-! ## Spend ledger (src/safenode/src/domain/storage/spends.rs)

A SignedSpend (from sn_dbc) is modelled by its observationally relevant
content: the dbc id, the inner spend content (whose hash the code compares
via spend.hash()), and the signature bytes.  Byte equality of two
serialized SignedSpends is equality of the whole structure; equality of
spend.hash() is equality of the spend field (the code hashes the inner
spend there, not the signature). -/

structure SignedSpend where
  dbcId : Nat
  spend : Nat
  sig : Nat
deriving DecidableEq

/-- spends.rs dbc_address / get_dbc_name: XorName::from_content over the
dbc id bytes, an injective derivation; modelled as the identity on Nat. -/
def dbc_address (dbcId : Nat) : Nat := dbcId

/-- Errors of src/safenode/src/domain/storage (the variants the embedded
operations can produce; Io stands for a tokio fs error such as
remove_file on a missing path). -/
inductive SpendError where
  | SpendNotFound (addr : Nat)
  | DoubleSpendAttempt (newSpend existing : SignedSpend)
  | NotADoubleSpendAttempt (a b : SignedSpend)
  | InvalidSignature
  | Io
deriving DecidableEq

/-- Association-list read, modelling one file per key on disk. -/
def alistGet {α : Type} (l : List (Nat × α)) (k : Nat) : Option α :=
  match l with
  | [] => none
  | (k1, v) :: t => if k1 = k then some v else alistGet t k

/-- SpendStorage (spends.rs): the two persistent partitions, each a
directory of one file per address. -/
structure SpendStorage where
  valid_spends : List (Nat × SignedSpend)
  double_spends : List (Nat × (SignedSpend × SignedSpend))
deriving DecidableEq

/-- SpendStorage::get (spends.rs): read the valid-spends file for the
address and check the recreated address matches; any failure is
SpendNotFound. -/
def SpendStorage.get (st : SpendStorage) (address : Nat) : Except SpendError SignedSpend :=
  match alistGet st.valid_spends address with
  | some spend =>
    if address = dbc_address spend.dbcId then .ok spend
    else .error (.SpendNotFound address)
  | none => .error (.SpendNotFound address)

/-- SpendStorage::try_get_double_spend (spends.rs). -/
def SpendStorage.try_get_double_spend (st : SpendStorage) (address : Nat) :
    Except SpendError (SignedSpend × SignedSpend) :=
  match alistGet st.double_spends address with
  | some (a, b) =>
    if address = dbc_address a.dbcId then .ok (a, b)
    else .error (.SpendNotFound address)
  | none => .error (.SpendNotFound address)

/-- SpendStorage::is_unspendable (spends.rs). -/
def SpendStorage.is_unspendable (st : SpendStorage) (dbcId : Nat) : Bool :=
  (st.try_get_double_spend (dbc_address dbcId)).toBool

/-- SpendStorage::try_store_double_spend (spends.rs): no-op if the
double-spends file already exists, else write the ordered pair
(a_spend, b_spend).  The disk write itself is modelled as infallible. -/
def SpendStorage.try_store_double_spend (st : SpendStorage) (a b : SignedSpend) :
    SpendStorage :=
  if (alistGet st.double_spends (dbc_address a.dbcId)).isSome then st
  else { st with
         double_spends := st.double_spends ++ [(dbc_address a.dbcId, (a, b))] }

/-- SpendStorage::remove on the valid_spends root (spends.rs):
remove_file fails when the file does not exist. -/
def SpendStorage.removeValid (st : SpendStorage) (address : Nat) :
    Except SpendError SpendStorage :=
  if (alistGet st.valid_spends address).isSome then
    .ok { st with valid_spends := st.valid_spends.filter (fun kv => kv.1 ≠ address) }
  else .error .Io

/-- SpendStorage::validate (spends.rs).  Returns the state (disk
mutations survive an error return) together with an optional error.
verifyOk models signed_spend.verify(dst_tx_hash), the bls signature
check.  In the tamper branch the results of try_store_double_spend and
remove are deliberately ignored by the source (let _ = ...). -/
def SpendStorage.validate (verifyOk : SignedSpend → Bool) (st : SpendStorage)
    (s : SignedSpend) : SpendStorage × Option SpendError :=
  if st.is_unspendable s.dbcId then (st, none)
  else
    match st.get (dbc_address s.dbcId) with
    | .ok existing =>
      if s.spend ≠ existing.spend then
        (match (st.try_store_double_spend existing s).removeValid
            (dbc_address s.dbcId) with
         | .ok st2 => st2
         | .error _ => st.try_store_double_spend existing s,
         some (.DoubleSpendAttempt s existing))
      else if verifyOk s then (st, none) else (st, some .InvalidSignature)
    | .error _ =>
      if verifyOk s then (st, none) else (st, some .InvalidSignature)

/-- SpendStorage::try_add (spends.rs): validate, then if the
valid-spends file already exists validate again and return, else create
the file and write the spend. -/
def SpendStorage.try_add (verifyOk : SignedSpend → Bool) (st : SpendStorage)
    (s : SignedSpend) : SpendStorage × Option SpendError :=
  match SpendStorage.validate verifyOk st s with
  | (st1, some e) => (st1, some e)
  | (st1, none) =>
    if (alistGet st1.valid_spends (dbc_address s.dbcId)).isSome then
      match SpendStorage.validate verifyOk st1 s with
      | (st2, some e) => (st2, some e)
      | (st2, none) => (st2, none)
    else
      ({ st1 with
         valid_spends := st1.valid_spends ++ [(dbc_address s.dbcId, s)] }, none)

/-- SpendStorage::try_add_double (spends.rs).  same_hash compares
sn_dbc::Hash::hash(to_bytes()) of the two spends, i.e. full byte
equality; the remove error propagates (the ? operator). -/
def SpendStorage.try_add_double (st : SpendStorage) (a_spend b_spend : SignedSpend) :
    SpendStorage × Option SpendError :=
  if a_spend.dbcId ≠ b_spend.dbcId ∨ a_spend = b_spend then
    (st, some (.NotADoubleSpendAttempt a_spend b_spend))
  else if st.is_unspendable a_spend.dbcId then (st, none)
  else
    match (st.try_store_double_spend a_spend b_spend).removeValid
        (dbc_address a_spend.dbcId) with
    | .ok st2 => (st2, none)
    | .error e => (st.try_store_double_spend a_spend b_spend, some e)

/-! ## Store-quote negotiation (src/autonomi/src/client/quote.rs)

PeerId, XorName, quote hashes and EVM amounts are modelled as Nat.  The
close-group size (ant_protocol::CLOSE_GROUP_SIZE, whose definition is
outside the packaged sources) is threaded as the parameter cgs.  The
market-price oracle (ant_evm::payment_vault::get_market_price, one price
per QuotingMetrics entry, order preserving) is threaded as the total
function oracle over the quoting metrics. -/

/-- PaymentQuote (ant_evm), restricted to the fields the client code
reads: the quoting metrics sent to the oracle and the rewards address. -/
structure PaymentQuote where
  quoting_metrics : Nat
  rewards_address : Nat
deriving DecidableEq

/-- CostError (quote.rs), the variants reachable in the embedding. -/
inductive CostError where
  | CouldNotGetStoreQuote (addr : Nat)
  | NotEnoughNodeQuotes (addr got need : Nat)
deriving DecidableEq

/-- quote.rs: prices.sort_by on the price component; Rust sort_by is a
stable ascending sort, modelled by stable insertion. -/
def insertByPrice (x : Nat × PaymentQuote × Nat) :
    List (Nat × PaymentQuote × Nat) → List (Nat × PaymentQuote × Nat)
  | [] => [x]
  | y :: t => if y.2.2 ≤ x.2.2 then y :: insertByPrice x t else x :: y :: t

/-- Stable ascending sort by price (quote.rs prices.sort_by). -/
def sort_by_price : List (Nat × PaymentQuote × Nat) → List (Nat × PaymentQuote × Nat)
  | [] => []
  | x :: t => insertByPrice x (sort_by_price t)

/-- quote.rs: all_prices = get_market_price(metrics) zipped back onto the
raw (peer, quote) pairs, giving (peer, quote, price) triples. -/
def priced_quotes (oracle : Nat → Nat) (raw : List (Nat × PaymentQuote)) :
    List (Nat × PaymentQuote × Nat) :=
  ((raw.map (fun pq => oracle pq.2.quoting_metrics)).zip raw).map
    (fun pr => (pr.2.1, pr.2.2, pr.1))

/-- The per-address body of Client::get_store_quotes (quote.rs lines
105-162): skip (ok none) when at most half the close group quoted;
otherwise price, sort, and either select five quotes (cheapest two at
zero) or fail with NotEnoughNodeQuotes. -/
def process_address (cgs : Nat) (oracle : Nat → Nat) (addr : Nat)
    (raw : List (Nat × PaymentQuote)) :
    Except CostError (Option (List (Nat × PaymentQuote × Nat))) :=
  if raw.length ≤ cgs / 2 then .ok none
  else
    match sort_by_price (priced_quotes oracle raw) with
    | first :: second :: third :: fourth :: fifth :: _ =>
      .ok (some [(first.1, first.2.1, 0), (second.1, second.2.1, 0),
                 third, fourth, fifth])
    | _ => .error (.NotEnoughNodeQuotes addr
        (sort_by_price (priced_quotes oracle raw)).length 5)

/-- The for-loop of Client::get_store_quotes over the joined raw quotes,
building the StoreQuote map (modelled as an association list in
insertion order) and short-circuiting on the first error. -/
def get_store_quotes_loop (cgs : Nat) (oracle : Nat → Nat) :
    List (Nat × List (Nat × PaymentQuote)) →
    Except CostError (List (Nat × List (Nat × PaymentQuote × Nat)))
  | [] => .ok []
  | (addr, raw) :: rest =>
    match process_address cgs oracle addr raw with
    | .error e => .error e
    | .ok none => get_store_quotes_loop cgs oracle rest
    | .ok (some sel) =>
      match get_store_quotes_loop cgs oracle rest with
      | .error e => .error e
      | .ok sq => .ok ((addr, sel) :: sq)

/-- futures::future::try_join_all over the per-address fetch futures
(quote.rs line 94), with completion order modelled as list order: all
results, or the first error. -/
def try_join_all {ε α : Type} : List (Except ε α) → Except ε (List α)
  | [] => .ok []
  | .error e :: _ => .error e
  | .ok a :: rest =>
    match try_join_all rest with
    | .error e => .error e
    | .ok t => .ok (a :: t)

/-- Client::get_store_quotes (quote.rs): join all per-address fetch
results, then run the selection loop.  fetchResults are the outcomes of
fetch_store_quote_with_retries, one per content address. -/
def get_store_quotes (cgs : Nat) (oracle : Nat → Nat)
    (fetchResults : List (Except CostError (Nat × List (Nat × PaymentQuote)))) :
    Except CostError (List (Nat × List (Nat × PaymentQuote × Nat))) :=
  match try_join_all fetchResults with
  | .error e => .error e
  | .ok rawPerAddr => get_store_quotes_loop cgs oracle rawPerAddr

/-- fetch_store_quote_with_retries (quote.rs lines 186-223).  attempts
gives the outcome of the i-th fetch_store_quote call (network error
payloads as Nat).  The source counts a mutable retries counter upward;
here retries_left = 2 - retries so that the recursion is structural:
the source breaks Ok on any network success unless the incremented
counter exceeds 2 (retries_left = 0), and on a network error it loops
while retries < 2 (retries_left > 0), else breaks with the error. -/
def fetch_loop (cgs addr : Nat) (attempts : Nat → Except Nat (List (Nat × PaymentQuote))) :
    Nat → Nat → Except CostError (Nat × List (Nat × PaymentQuote))
  | 0, i =>
    match attempts i with
    | .ok quote =>
      if quote.length < cgs then .error (.CouldNotGetStoreQuote addr)
      else .ok (addr, quote)
    | .error _ => .error (.CouldNotGetStoreQuote addr)
  | r + 1, i =>
    match attempts i with
    | .ok quote => .ok (addr, quote)
    | .error _ => fetch_loop cgs addr attempts r (i + 1)

/-- fetch_store_quote_with_retries entry point: retries starts at 0,
i.e. retries_left = 2. -/
def fetch_store_quote_with_retries (cgs addr : Nat)
    (attempts : Nat → Except Nat (List (Nat × PaymentQuote))) :
    Except CostError (Nat × List (Nat × PaymentQuote)) :=
  fetch_loop cgs addr attempts 2 0

/-! ## Upload with retries (src/autonomi/src/client/data/mod.rs) -/

/-- PutError (src/autonomi/src/client/error.rs), the variants reachable
in the embedding (Network carries an opaque payload). -/
inductive PutError where
  | PayeesMissing
  | Network (e : Nat)
deriving DecidableEq

/-- Chunk (ant_protocol), identified by its XorName. -/
structure Chunk where
  name : Nat
deriving DecidableEq

/-- ProofOfPayment (ant_evm), restricted to the payee list that
payment.payees() returns. -/
structure ProofOfPayment where
  payees : List Nat
deriving DecidableEq

/-- Receipt (autonomi payment module): content address to proof and
paid amount. -/
def Receipt : Type := List (Nat × (ProofOfPayment × Nat))

/-- data/mod.rs RETRY_ATTEMPTS: number of retries to upload chunks. -/
def RETRY_ATTEMPTS : Nat := 3

/-- One concurrent batch of upload_chunks_with_retries (data/mod.rs
lines 220-248): chunks absent from the receipt are skipped, the rest are
attempted (outcome n c is the failure, if any, of chunk c on batch n;
the concurrency pool is modelled as completing in task order) and the
failed ones collected. -/
def upload_round (outcome : Nat → Chunk → Option PutError) (receipt : Receipt)
    (chunks : List Chunk) (current_attempt : Nat) : List (Chunk × PutError) :=
  (chunks.filter (fun c => (alistGet receipt c.name).isSome)).filterMap
    (fun c => (outcome current_attempt c).map (fun e => (c, e)))

/-- The retry loop of Client::upload_chunks_with_retries (data/mod.rs
lines 214-271), also counting the number of batch rounds executed.  The
source compares the upward current_attempt counter against
RETRY_ATTEMPTS; here fuel = RETRY_ATTEMPTS + 1 - current_attempt so the
recursion is structural: fuel = 0 exactly when current_attempt >
RETRY_ATTEMPTS, the branch where the surviving failures are returned. -/
def upload_loop (outcome : Nat → Chunk → Option PutError) (receipt : Receipt) :
    Nat → List Chunk → Nat → List (Chunk × PutError) × Nat
  | 0, chunks, current_attempt =>
    if (upload_round outcome receipt chunks current_attempt).isEmpty then ([], 1)
    else (upload_round outcome receipt chunks current_attempt, 1)
  | f + 1, chunks, current_attempt =>
    if (upload_round outcome receipt chunks current_attempt).isEmpty then ([], 1)
    else
      ((upload_loop outcome receipt f
          ((upload_round outcome receipt chunks current_attempt).map Prod.fst)
          (current_attempt + 1)).1,
       (upload_loop outcome receipt f
          ((upload_round outcome receipt chunks current_attempt).map Prod.fst)
          (current_attempt + 1)).2 + 1)

/-- Client::upload_chunks_with_retries (data/mod.rs): the loop starts at
current_attempt = 1, i.e. fuel = RETRY_ATTEMPTS. -/
def upload_chunks_with_retries (outcome : Nat → Chunk → Option PutError)
    (receipt : Receipt) (chunks : List Chunk) : List (Chunk × PutError) :=
  (upload_loop outcome receipt RETRY_ATTEMPTS chunks 1).1

/-- The number of concurrent batch rounds upload_chunks_with_retries
executes (each round is one pass of the source loop body). -/
def upload_attempt_rounds (outcome : Nat → Chunk → Option PutError)
    (receipt : Receipt) (chunks : List Chunk) : Nat :=
  (upload_loop outcome receipt RETRY_ATTEMPTS chunks 1).2

/-- Modelled from the spec: receipt_from_store_quotes (the autonomi
payment module is not part of the packaged sources; the spec describes a
Receipt as a mapping content-address to (ProofOfPayment, price), the
proof carrying the payee list).  Each StoreQuote entry becomes a receipt
entry for the same address, with the selected peers as payees and the
summed selected price as the amount. -/
def receipt_from_store_quotes
    (sq : List (Nat × List (Nat × PaymentQuote × Nat))) : Receipt :=
  sq.map (fun asel =>
    (asel.1, (⟨asel.2.map (fun t => t.1)⟩, (asel.2.map (fun t => t.2.2)).sum)))

/-! ## Replication batching (src/safenode/src/node/api.rs) -/

/-- api.rs line 46. -/
def MAX_REPLICATION_BATCH_SIZE : Nat := 25

/-- The GetMissingData loop of Node::handle_query (api.rs lines
291-319): walk the (already shuffled) local addresses, skip those the
requester already has, collect the rest (records are content-addressed,
so a record is modelled by its address and chunks.get is modelled as
always succeeding), stopping once the batch reaches
MAX_REPLICATION_BATCH_SIZE. -/
def missing_data_loop (existing : List Nat) : List Nat → List Nat → List Nat
  | [], acc => acc
  | addr :: rest, acc =>
    if addr ∈ existing then missing_data_loop existing rest acc
    else
      let acc1 := acc ++ [addr]
      if acc1.length = MAX_REPLICATION_BATCH_SIZE then acc1
      else missing_data_loop existing rest acc1

/-- The data batch returned for one GetMissingData query (api.rs):
data_for_sender starts empty. -/
def get_missing_data_batch (existing data_i_have : List Nat) : List Nat :=
  missing_data_loop existing data_i_have []

/-! ## Chunk upload with payment (src/autonomi/src/client/utils.rs) -/

/-- A put_record call issued to the network, as observable effect of
chunk_upload_with_payment: the record key and the payee list it is
directed to (use_put_record_to). -/
structure PutAction where
  key : Nat
  payees : List Nat
deriving DecidableEq

/-- Client::chunk_upload_with_payment (utils.rs lines 91-153): empty
payee list fails with PayeesMissing before anything is built or sent;
otherwise the record is serialized (modelled as always succeeding) and
one put_record is issued to the payees, whose network outcome putResult
determines the result.  The first component lists the network puts
performed. -/
def chunk_upload_with_payment (putResult : PutAction → Except Nat Unit)
    (chunk : Chunk) (payment : ProofOfPayment) :
    List PutAction × Except PutError Unit :=
  let storing_nodes := payment.payees
  if storing_nodes.isEmpty then ([], .error .PayeesMissing)
  else
    let action : PutAction := ⟨chunk.name, storing_nodes⟩
    match putResult action with
    | .ok _ => ([action], .ok ())
    | .error e => ([action], .error (.Network e))

/-! ## Helper lemmas -/

/-- Appending a fresh key to an association list makes it found. -/
theorem alistGet_append_self {α : Type} (l : List (Nat × α)) (k : Nat) (v : α)
    (h : alistGet l k = none) : alistGet (l ++ [(k, v)]) k = some v := by
  induction l with
  | nil => simp [alistGet]
  | cons hd t ih =>
    obtain ⟨k1, w⟩ := hd
    by_cases hk : k1 = k
    · simp [alistGet, hk] at h
    · simp only [alistGet, List.cons_append, if_neg hk] at h ⊢
      exact ih h

/-- Characterization of SpendStorage.get returning ok. -/
theorem spend_get_ok_iff (st : SpendStorage) (a : Nat) (x : SignedSpend) :
    st.get a = .ok x ↔
      alistGet st.valid_spends a = some x ∧ a = dbc_address x.dbcId := by
  unfold SpendStorage.get
  cases h : alistGet st.valid_spends a with
  | none => simp
  | some spend =>
    by_cases ha : a = dbc_address spend.dbcId
    · simp only [ha, if_pos rfl]
      constructor
      · intro he
        cases he
        exact ⟨rfl, rfl⟩
      · rintro ⟨h1, h2⟩
        cases h1
        rfl
    · simp only [if_neg ha]
      constructor
      · intro he
        cases he
      · rintro ⟨h1, h2⟩
        cases h1
        exact absurd h2 ha

/-! ## Claim C1 -/

/-- Claim C1 (code bug evaluation).  With the double-spends partition
already holding the conflict pair for dbc id 1 and the valid-spends
partition empty, a retried try_add for that id returns success AND
writes the spend back into valid_spends: validate short-circuits to Ok
because the id is unspendable, then try_add finds no valid-spends file
and stores the spend.  This contradicts the spec (success without
effect) and the source module documentation (a peer will never again
store such a spend to valid_spends).  The signature check is modelled as
always failing, showing the spend is stored without ever being
verified. -/
theorem try_add_repopulates_valid_spends_after_double_spend :
    SpendStorage.try_add (fun _ => false)
        ⟨[], [(1, (⟨1, 10, 0⟩, ⟨1, 20, 0⟩))]⟩ ⟨1, 10, 0⟩
      = (⟨[(1, ⟨1, 10, 0⟩)], [(1, (⟨1, 10, 0⟩, ⟨1, 20, 0⟩))]⟩, none)
    ∧ alistGet (SpendStorage.try_add (fun _ => false)
        ⟨[], [(1, (⟨1, 10, 0⟩, ⟨1, 20, 0⟩))]⟩ ⟨1, 10, 0⟩).1.valid_spends 1
      = some ⟨1, 10, 0⟩ := by decide

/-! ## Claim C3 -/

/-- Claim C3 (counterexample).  try_add_double stores the conflicting
pair in argument order, so the two call orders leave different
double-spends records on disk: (a, b) in one order and (b, a) in the
other.  The "same stored double-spend record" part of the claim is
therefore false. -/
theorem try_add_double_order_counterexample :
    (SpendStorage.try_add_double ⟨[(1, ⟨1, 10, 0⟩)], []⟩ ⟨1, 10, 0⟩ ⟨1, 20, 0⟩).1.double_spends
      ≠ (SpendStorage.try_add_double ⟨[(1, ⟨1, 10, 0⟩)], []⟩ ⟨1, 20, 0⟩ ⟨1, 10, 0⟩).1.double_spends := by
  decide

/-- Claim C3 (amended).  For two spends sharing an id and differing in
content, try_add_double in either order produces the same valid-spends
partition (the same eviction), the same result, and double-spends
records holding the same two conflicting spends; only the component
order of the stored pair follows the argument order. -/
theorem try_add_double_symmetric (st : SpendStorage) (a b : SignedSpend)
    (hid : a.dbcId = b.dbcId) (hne : a ≠ b) :
    (st.try_add_double a b).1.valid_spends = (st.try_add_double b a).1.valid_spends
    ∧ (st.try_add_double a b).2 = (st.try_add_double b a).2
    ∧ (alistGet (st.try_add_double a b).1.double_spends (dbc_address a.dbcId)
         = alistGet (st.try_add_double b a).1.double_spends (dbc_address a.dbcId)
       ∨ (alistGet (st.try_add_double a b).1.double_spends (dbc_address a.dbcId)
            = some (a, b)
          ∧ alistGet (st.try_add_double b a).1.double_spends (dbc_address a.dbcId)
            = some (b, a))) := by
  have hguard1 : ¬(a.dbcId ≠ b.dbcId ∨ a = b) := by
    rintro (h | h)
    · exact h hid
    · exact hne h
  have hguard2 : ¬(b.dbcId ≠ a.dbcId ∨ b = a) := by
    rintro (h | h)
    · exact h hid.symm
    · exact hne h.symm
  have haddr : dbc_address b.dbcId = dbc_address a.dbcId := by rw [hid]
  have hunsp : st.is_unspendable b.dbcId = st.is_unspendable a.dbcId := by
    unfold SpendStorage.is_unspendable
    rw [haddr]
  unfold SpendStorage.try_add_double
  rw [if_neg hguard1, if_neg hguard2, hunsp]
  by_cases hu : st.is_unspendable a.dbcId
  · simp [hu]
  · rw [if_neg (by simp [hu]), if_neg (by simp [hu])]
    by_cases hd : (alistGet st.double_spends (dbc_address a.dbcId)).isSome
    · have h1 : st.try_store_double_spend a b = st := by
        unfold SpendStorage.try_store_double_spend
        rw [if_pos hd]
      have h2 : st.try_store_double_spend b a = st := by
        unfold SpendStorage.try_store_double_spend
        rw [haddr, if_pos hd]
      rw [h1, h2, haddr]
      exact ⟨rfl, rfl, Or.inl rfl⟩
    · have hdn : alistGet st.double_spends (dbc_address a.dbcId) = none := by
        cases h : alistGet st.double_spends (dbc_address a.dbcId) with
        | none => rfl
        | some x => rw [h] at hd; simp at hd
      have h1 : st.try_store_double_spend a b
          = ⟨st.valid_spends,
             st.double_spends ++ [(dbc_address a.dbcId, (a, b))]⟩ := by
        unfold SpendStorage.try_store_double_spend
        rw [if_neg hd]
      have h2 : st.try_store_double_spend b a
          = ⟨st.valid_spends,
             st.double_spends ++ [(dbc_address a.dbcId, (b, a))]⟩ := by
        unfold SpendStorage.try_store_double_spend
        rw [haddr, if_neg hd]
      have hga : alistGet (st.double_spends ++ [(dbc_address a.dbcId, (a, b))])
          (dbc_address a.dbcId) = some (a, b) := alistGet_append_self _ _ _ hdn
      have hgb : alistGet (st.double_spends ++ [(dbc_address a.dbcId, (b, a))])
          (dbc_address a.dbcId) = some (b, a) := alistGet_append_self _ _ _ hdn
      rw [h1, h2, haddr]
      by_cases hv : (alistGet st.valid_spends (dbc_address a.dbcId)).isSome
      · have hrA : SpendStorage.removeValid
            ⟨st.valid_spends, st.double_spends ++ [(dbc_address a.dbcId, (a, b))]⟩
            (dbc_address a.dbcId)
            = .ok ⟨st.valid_spends.filter (fun kv => kv.1 ≠ dbc_address a.dbcId),
                   st.double_spends ++ [(dbc_address a.dbcId, (a, b))]⟩ := by
          unfold SpendStorage.removeValid
          rw [if_pos hv]
        have hrB : SpendStorage.removeValid
            ⟨st.valid_spends, st.double_spends ++ [(dbc_address a.dbcId, (b, a))]⟩
            (dbc_address a.dbcId)
            = .ok ⟨st.valid_spends.filter (fun kv => kv.1 ≠ dbc_address a.dbcId),
                   st.double_spends ++ [(dbc_address a.dbcId, (b, a))]⟩ := by
          unfold SpendStorage.removeValid
          rw [if_pos hv]
        rw [hrA, hrB]
        exact ⟨rfl, rfl, Or.inr ⟨hga, hgb⟩⟩
      · have hrA : SpendStorage.removeValid
            ⟨st.valid_spends, st.double_spends ++ [(dbc_address a.dbcId, (a, b))]⟩
            (dbc_address a.dbcId) = .error .Io := by
          unfold SpendStorage.removeValid
          rw [if_neg hv]
        have hrB : SpendStorage.removeValid
            ⟨st.valid_spends, st.double_spends ++ [(dbc_address a.dbcId, (b, a))]⟩
            (dbc_address a.dbcId) = .error .Io := by
          unfold SpendStorage.removeValid
          rw [if_neg hv]
        rw [hrA, hrB]
        exact ⟨rfl, rfl, Or.inr ⟨hga, hgb⟩⟩

/-- Claim C3 witness: the amended symmetry at a concrete double-spend
pair with a prior valid entry. -/
theorem try_add_double_symmetric_witness :
    (SpendStorage.try_add_double ⟨[(1, ⟨1, 10, 0⟩)], []⟩ ⟨1, 10, 0⟩ ⟨1, 20, 0⟩).1.valid_spends
      = (SpendStorage.try_add_double ⟨[(1, ⟨1, 10, 0⟩)], []⟩ ⟨1, 20, 0⟩ ⟨1, 10, 0⟩).1.valid_spends
    ∧ (SpendStorage.try_add_double ⟨[(1, ⟨1, 10, 0⟩)], []⟩ ⟨1, 10, 0⟩ ⟨1, 20, 0⟩).2
      = (SpendStorage.try_add_double ⟨[(1, ⟨1, 10, 0⟩)], []⟩ ⟨1, 20, 0⟩ ⟨1, 10, 0⟩).2
    ∧ (alistGet (SpendStorage.try_add_double ⟨[(1, ⟨1, 10, 0⟩)], []⟩
          ⟨1, 10, 0⟩ ⟨1, 20, 0⟩).1.double_spends (dbc_address 1)
         = alistGet (SpendStorage.try_add_double ⟨[(1, ⟨1, 10, 0⟩)], []⟩
          ⟨1, 20, 0⟩ ⟨1, 10, 0⟩).1.double_spends (dbc_address 1)
       ∨ (alistGet (SpendStorage.try_add_double ⟨[(1, ⟨1, 10, 0⟩)], []⟩
            ⟨1, 10, 0⟩ ⟨1, 20, 0⟩).1.double_spends (dbc_address 1)
            = some (⟨1, 10, 0⟩, ⟨1, 20, 0⟩)
          ∧ alistGet (SpendStorage.try_add_double ⟨[(1, ⟨1, 10, 0⟩)], []⟩
            ⟨1, 20, 0⟩ ⟨1, 10, 0⟩).1.double_spends (dbc_address 1)
            = some (⟨1, 20, 0⟩, ⟨1, 10, 0⟩))) :=
  try_add_double_symmetric ⟨[(1, ⟨1, 10, 0⟩)], []⟩ ⟨1, 10, 0⟩ ⟨1, 20, 0⟩
    (by decide) (by decide)

/-! ## Claim C4 -/

/-- Claim C4: if try_add accepts a signed spend (success of the first
call), then calling try_add again with the byte-identical spend is a
success that leaves the state unchanged, and the accepted first call
never touched the double-spends partition — so the repeated pair of
calls never creates a double-spend record. -/
theorem try_add_idempotent (v : SignedSpend → Bool) (st st1 : SpendStorage)
    (s : SignedSpend) (h : SpendStorage.try_add v st s = (st1, none)) :
    SpendStorage.try_add v st1 s = (st1, none)
    ∧ st1.double_spends = st.double_spends := by
  by_cases hun : st.is_unspendable s.dbcId = true
  · -- the id is already double spent: validate short-circuits
    have hval : SpendStorage.validate v st s = (st, none) := by
      unfold SpendStorage.validate
      rw [if_pos hun]
    cases hexn : alistGet st.valid_spends (dbc_address s.dbcId) with
    | some w =>
      have htry : SpendStorage.try_add v st s = (st, none) := by
        simp [SpendStorage.try_add, hval, hexn]
      rw [htry] at h
      injection h with h1 h2
      subst h1
      exact ⟨htry, rfl⟩
    | none =>
      have htry : SpendStorage.try_add v st s
          = (⟨st.valid_spends ++ [(dbc_address s.dbcId, s)], st.double_spends⟩,
             none) := by
        simp [SpendStorage.try_add, hval, hexn]
      rw [htry] at h
      injection h with h1 h2
      subst h1
      refine ⟨?_, rfl⟩
      have hun2 : SpendStorage.is_unspendable
          ⟨st.valid_spends ++ [(dbc_address s.dbcId, s)], st.double_spends⟩
          s.dbcId = true := hun
      have hval2 : SpendStorage.validate v
          ⟨st.valid_spends ++ [(dbc_address s.dbcId, s)], st.double_spends⟩ s
          = (⟨st.valid_spends ++ [(dbc_address s.dbcId, s)], st.double_spends⟩,
             none) := by
        unfold SpendStorage.validate
        rw [if_pos hun2]
      have halist2 : alistGet (st.valid_spends ++ [(dbc_address s.dbcId, s)])
          (dbc_address s.dbcId) = some s := alistGet_append_self _ _ _ hexn
      simp [SpendStorage.try_add, hval2, halist2]
  · -- the id is not double spent
    cases hget : st.get (dbc_address s.dbcId) with
    | ok ex =>
      by_cases htam : s.spend = ex.spend
      · by_cases hverify : v s = true
        · have hval : SpendStorage.validate v st s = (st, none) := by
            simp [SpendStorage.validate, hun, hget, htam, hverify]
          have halist : alistGet st.valid_spends (dbc_address s.dbcId) = some ex :=
            ((spend_get_ok_iff st (dbc_address s.dbcId) ex).mp hget).1
          have htry : SpendStorage.try_add v st s = (st, none) := by
            simp [SpendStorage.try_add, hval, halist]
          rw [htry] at h
          injection h with h1 h2
          subst h1
          exact ⟨htry, rfl⟩
        · have hval : SpendStorage.validate v st s
              = (st, some .InvalidSignature) := by
            simp [SpendStorage.validate, hun, hget, htam, hverify]
          have htry : SpendStorage.try_add v st s = (st, some .InvalidSignature) := by
            simp [SpendStorage.try_add, hval]
          rw [htry] at h
          injection h with h1 h2
          cases h2
      · have hval : (SpendStorage.validate v st s).2
            = some (.DoubleSpendAttempt s ex) := by
          simp [SpendStorage.validate, hun, hget, htam]
        have htry : (SpendStorage.try_add v st s).2
            = some (.DoubleSpendAttempt s ex) := by
          unfold SpendStorage.try_add
          cases hveq : SpendStorage.validate v st s with
          | mk stv e =>
            rw [hveq] at hval
            simp only at hval
            subst hval
            rfl
        rw [h] at htry
        cases htry
    | error err =>
      by_cases hverify : v s = true
      · have hval : SpendStorage.validate v st s = (st, none) := by
          simp [SpendStorage.validate, hun, hget, hverify]
        cases halist : alistGet st.valid_spends (dbc_address s.dbcId) with
        | some w =>
          have htry : SpendStorage.try_add v st s = (st, none) := by
            simp [SpendStorage.try_add, hval, halist]
          rw [htry] at h
          injection h with h1 h2
          subst h1
          exact ⟨htry, rfl⟩
        | none =>
          have htry : SpendStorage.try_add v st s
              = (⟨st.valid_spends ++ [(dbc_address s.dbcId, s)], st.double_spends⟩,
                 none) := by
            simp [SpendStorage.try_add, hval, halist]
          rw [htry] at h
          injection h with h1 h2
          subst h1
          refine ⟨?_, rfl⟩
          have hun2 : ¬(SpendStorage.is_unspendable
              ⟨st.valid_spends ++ [(dbc_address s.dbcId, s)], st.double_spends⟩
              s.dbcId = true) := hun
          have halist2 : alistGet (st.valid_spends ++ [(dbc_address s.dbcId, s)])
              (dbc_address s.dbcId) = some s := alistGet_append_self _ _ _ halist
          have hget2 : SpendStorage.get
              ⟨st.valid_spends ++ [(dbc_address s.dbcId, s)], st.double_spends⟩
              (dbc_address s.dbcId) = .ok s :=
            (spend_get_ok_iff _ _ _).mpr ⟨halist2, rfl⟩
          have hval2 : SpendStorage.validate v
              ⟨st.valid_spends ++ [(dbc_address s.dbcId, s)], st.double_spends⟩ s
              = (⟨st.valid_spends ++ [(dbc_address s.dbcId, s)], st.double_spends⟩,
                 none) := by
            simp [SpendStorage.validate, hun2, hget2, hverify]
          simp [SpendStorage.try_add, hval2, halist2]
      · have hval : SpendStorage.validate v st s = (st, some .InvalidSignature) := by
          simp [SpendStorage.validate, hun, hget, hverify]
        have htry : SpendStorage.try_add v st s = (st, some .InvalidSignature) := by
          simp [SpendStorage.try_add, hval]
        rw [htry] at h
        injection h with h1 h2
        cases h2

/-- Claim C4 witness: the idempotence at a freshly accepted concrete
spend. -/
theorem try_add_idempotent_witness :
    SpendStorage.try_add (fun _ => true) ⟨[(1, ⟨1, 10, 0⟩)], []⟩ ⟨1, 10, 0⟩
      = (⟨[(1, ⟨1, 10, 0⟩)], []⟩, none)
    ∧ SpendStorage.double_spends ⟨[(1, ⟨1, 10, 0⟩)], []⟩
      = SpendStorage.double_spends ⟨[], []⟩ :=
  try_add_idempotent (fun _ => true) ⟨[], []⟩ ⟨[(1, ⟨1, 10, 0⟩)], []⟩ ⟨1, 10, 0⟩
    (by decide)

/-! ## Claim C2 -/

/-- Claim C2: past the already-paid skip threshold, an address whose
priced-and-sorted quote list has at least five entries gets exactly five
selected quotes — the cheapest two at price zero and the next three at
their full market price — while fewer than five priced quotes make
get_store_quotes fail with NotEnoughNodeQuotes, producing no StoreQuote
(nothing is charged). -/
theorem get_store_quotes_selection (cgs : Nat) (oracle : Nat → Nat) (addr : Nat)
    (raw : List (Nat × PaymentQuote))
    (rest : List (Nat × List (Nat × PaymentQuote)))
    (hhalf : ¬raw.length ≤ cgs / 2) :
    (∀ s0 s1 s2 s3 s4 tl,
        sort_by_price (priced_quotes oracle raw)
          = s0 :: s1 :: s2 :: s3 :: s4 :: tl →
        process_address cgs oracle addr raw
          = .ok (some [(s0.1, s0.2.1, 0), (s1.1, s1.2.1, 0), s2, s3, s4]))
    ∧ ((sort_by_price (priced_quotes oracle raw)).length < 5 →
        process_address cgs oracle addr raw
          = .error (.NotEnoughNodeQuotes addr
              (sort_by_price (priced_quotes oracle raw)).length 5)
        ∧ get_store_quotes_loop cgs oracle ((addr, raw) :: rest)
          = .error (.NotEnoughNodeQuotes addr
              (sort_by_price (priced_quotes oracle raw)).length 5)) := by
  constructor
  · intro s0 s1 s2 s3 s4 tl hs
    unfold process_address
    rw [if_neg hhalf, hs]
  · intro hlen
    have herr : process_address cgs oracle addr raw
        = .error (.NotEnoughNodeQuotes addr
            (sort_by_price (priced_quotes oracle raw)).length 5) := by
      unfold process_address
      rw [if_neg hhalf]
      revert hlen
      generalize sort_by_price (priced_quotes oracle raw) = l
      intro hlen
      obtain _ | ⟨s0, _ | ⟨s1, _ | ⟨s2, _ | ⟨s3, _ | ⟨s4, tl⟩⟩⟩⟩⟩ := l
      · rfl
      · rfl
      · rfl
      · rfl
      · rfl
      · simp only [List.length_cons] at hlen
        omega
    exact ⟨herr, by simp [get_store_quotes_loop, herr]⟩

/-- Claim C2 witness: the five-quote selection at a concrete address
with five raw quotes priced by the identity oracle. -/
theorem get_store_quotes_selection_witness :
    process_address 5 (fun m => m) 99
      [(1, ⟨10, 0⟩), (2, ⟨5, 0⟩), (3, ⟨8, 0⟩), (4, ⟨1, 0⟩), (5, ⟨3, 0⟩)]
      = .ok (some [(4, ⟨1, 0⟩, 0), (5, ⟨3, 0⟩, 0), (2, ⟨5, 0⟩, 5),
                   (3, ⟨8, 0⟩, 8), (1, ⟨10, 0⟩, 10)]) :=
  (get_store_quotes_selection 5 (fun m => m) 99
      [(1, ⟨10, 0⟩), (2, ⟨5, 0⟩), (3, ⟨8, 0⟩), (4, ⟨1, 0⟩), (5, ⟨3, 0⟩)] []
      (by decide)).1
    (4, ⟨1, 0⟩, 1) (5, ⟨3, 0⟩, 3) (2, ⟨5, 0⟩, 5) (3, ⟨8, 0⟩, 8) (1, ⟨10, 0⟩, 10)
    [] (by decide)

/-! ## Claim C9 -/

/-- try_join_all returns the first error once all earlier futures
succeeded. -/
theorem try_join_all_error_after_ok {ε α : Type} (pre : List (Except ε α))
    (e : ε) (post : List (Except ε α)) (hpre : ∀ r ∈ pre, ∃ a, r = .ok a) :
    try_join_all (pre ++ .error e :: post) = .error e := by
  induction pre with
  | nil => rfl
  | cons r t ih =>
    have ht : ∀ x ∈ t, ∃ b, x = .ok b := fun x hx =>
      hpre x (List.mem_cons_of_mem r hx)
    obtain ⟨a, rfl⟩ := hpre r (List.mem_cons_self r t)
    simp [try_join_all, ih ht]

/-- Claim C9: when the per-address quote fetch fails for one address
(and the others succeeded), get_store_quotes returns that error and
produces no StoreQuote for any address. -/
theorem get_store_quotes_no_partial_result (cgs : Nat) (oracle : Nat → Nat)
    (pre post : List (Except CostError (Nat × List (Nat × PaymentQuote))))
    (e : CostError) (hpre : ∀ r ∈ pre, ∃ a, r = .ok a) :
    get_store_quotes cgs oracle (pre ++ .error e :: post) = .error e := by
  unfold get_store_quotes
  rw [try_join_all_error_after_ok pre e post hpre]

/-- Claim C9 witness: one successful fetch followed by one failed fetch
fails the whole batch with the failed fetch's error. -/
theorem get_store_quotes_no_partial_result_witness :
    get_store_quotes 5 (fun m => m)
      [.ok (0, []), .error (.CouldNotGetStoreQuote 3)]
      = .error (.CouldNotGetStoreQuote 3) :=
  get_store_quotes_no_partial_result 5 (fun m => m) [.ok (0, [])] []
    (.CouldNotGetStoreQuote 3) (fun r hr => ⟨(0, []), by simpa using hr⟩)

/-! ## Claim C6 -/

/-- Claim C6 (counterexample): an attempt stream whose first fetch is a
network success carrying zero quotes makes the per-address fetch return
that undersized list as a success (with close-group size 5), instead of
failing with CouldNotGetStoreQuote as the claim states. -/
theorem fetch_store_quote_undersized_success :
    fetch_store_quote_with_retries 5 7 (fun _ => .ok []) = .ok (7, [])
    ∧ ([] : List (Nat × PaymentQuote)).length < 5 :=
  ⟨rfl, by decide⟩

/-- Claim C6 (amended): three consecutive network-level failures do fail
the per-address fetch with CouldNotGetStoreQuote, but a network success
is returned as a success even when it carries fewer than close-group-size
quotes — an undersized success only turns into CouldNotGetStoreQuote
when two earlier attempts had already failed. -/
theorem fetch_store_quote_retry_behavior (cgs addr : Nat)
    (attempts : Nat → Except Nat (List (Nat × PaymentQuote))) :
    (∀ e0 e1 e2, attempts 0 = .error e0 → attempts 1 = .error e1 →
        attempts 2 = .error e2 →
        fetch_store_quote_with_retries cgs addr attempts
          = .error (.CouldNotGetStoreQuote addr))
    ∧ (∀ q, attempts 0 = .ok q →
        fetch_store_quote_with_retries cgs addr attempts = .ok (addr, q))
    ∧ (∀ e0 e1 q, attempts 0 = .error e0 → attempts 1 = .error e1 →
        attempts 2 = .ok q → q.length < cgs →
        fetch_store_quote_with_retries cgs addr attempts
          = .error (.CouldNotGetStoreQuote addr)) := by
  refine ⟨?_, ?_, ?_⟩
  · intro e0 e1 e2 h0 h1 h2
    simp [fetch_store_quote_with_retries, fetch_loop, h0, h1, h2]
  · intro q h0
    simp [fetch_store_quote_with_retries, fetch_loop, h0]
  · intro e0 e1 q h0 h1 h2 hlen
    simp [fetch_store_quote_with_retries, fetch_loop, h0, h1, h2, hlen]

/-- Claim C6 witness: three network errors at a concrete attempt
stream. -/
theorem fetch_store_quote_retry_behavior_witness :
    fetch_store_quote_with_retries 5 4 (fun i => .error i)
      = .error (.CouldNotGetStoreQuote 4) :=
  (fetch_store_quote_retry_behavior 5 4 (fun i => .error i)).1 0 1 2 rfl rfl rfl

/-! ## Claim C5 -/

/-- Mapping the chunk out of a filterMap over always-failing outcomes
recovers the chunk list. -/
theorem filterMap_outcome_fst (f : Chunk → Option PutError) (chunks : List Chunk)
    (hf : ∀ c, f c ≠ none) :
    (chunks.filterMap (fun c => (f c).map (fun e => (c, e)))).map Prod.fst
      = chunks := by
  induction chunks with
  | nil => rfl
  | cons c t ih =>
    cases hc : f c with
    | none => exact absurd hc (hf c)
    | some e => simp [List.filterMap_cons, hc, ih]

/-- With every chunk in the receipt and every attempt failing, one batch
round fails exactly the attempted chunks. -/
theorem upload_round_always_fail (outcome : Nat → Chunk → Option PutError)
    (receipt : Receipt) (chunks : List Chunk) (n : Nat)
    (hin : ∀ c ∈ chunks, (alistGet receipt c.name).isSome = true)
    (hfail : ∀ m c, outcome m c ≠ none) :
    (upload_round outcome receipt chunks n).map Prod.fst = chunks := by
  unfold upload_round
  rw [List.filter_eq_self.mpr hin]
  exact filterMap_outcome_fst (outcome n) chunks (fun c => hfail n c)

/-- The retry loop under permanent failure: fuel + 1 rounds run and the
final round's failures cover the whole chunk list. -/
theorem upload_loop_always_fail (outcome : Nat → Chunk → Option PutError)
    (receipt : Receipt) (chunks : List Chunk)
    (hin : ∀ c ∈ chunks, (alistGet receipt c.name).isSome = true)
    (hfail : ∀ m c, outcome m c ≠ none) (hne : chunks ≠ []) :
    ∀ fuel n, (upload_loop outcome receipt fuel chunks n).2 = fuel + 1
      ∧ (upload_loop outcome receipt fuel chunks n).1.map Prod.fst = chunks := by
  intro fuel
  induction fuel with
  | zero =>
    intro n
    have hfst := upload_round_always_fail outcome receipt chunks n hin hfail
    cases hr : upload_round outcome receipt chunks n with
    | nil =>
      rw [hr] at hfst
      simp at hfst
      exact absurd hfst hne
    | cons p t =>
      rw [hr] at hfst
      constructor
      · simp [upload_loop, hr]
      · simpa [upload_loop, hr] using hfst
  | succ f ih =>
    intro n
    have hfst := upload_round_always_fail outcome receipt chunks n hin hfail
    cases hr : upload_round outcome receipt chunks n with
    | nil =>
      rw [hr] at hfst
      simp at hfst
      exact absurd hfst hne
    | cons p t =>
      rw [hr] at hfst
      have hstep : upload_loop outcome receipt (f + 1) chunks n
          = ((upload_loop outcome receipt f chunks (n + 1)).1,
             (upload_loop outcome receipt f chunks (n + 1)).2 + 1) := by
        simp only [upload_loop, hr, List.isEmpty_cons, Bool.false_eq_true,
          if_false, hfst]
      rw [hstep]
      exact ⟨by simp [(ih (n + 1)).1], by simpa using (ih (n + 1)).2⟩

/-- Claim C5 (counterexample): a single always-failing chunk that is in
the receipt is retried through 4 batch rounds, not 3 — the loop runs the
initial attempt plus RETRY_ATTEMPTS retries. -/
theorem upload_retry_rounds_counterexample :
    upload_attempt_rounds (fun _ _ => some (.Network 0))
        [(0, (⟨[1]⟩, 1))] [⟨0⟩] = 4
    ∧ upload_attempt_rounds (fun _ _ => some (.Network 0))
        [(0, (⟨[1]⟩, 1))] [⟨0⟩] ≠ 3 := by decide

/-- Claim C5 (amended): over a non-empty batch of receipt-covered chunks
whose uploads always fail, upload_chunks_with_retries terminates after
exactly 4 batch rounds (the initial attempt plus RETRY_ATTEMPTS = 3
retries) and reports every chunk as failed. -/
theorem upload_chunks_with_retries_budget (outcome : Nat → Chunk → Option PutError)
    (receipt : Receipt) (chunks : List Chunk)
    (hin : ∀ c ∈ chunks, (alistGet receipt c.name).isSome = true)
    (hfail : ∀ m c, outcome m c ≠ none) (hne : chunks ≠ []) :
    upload_attempt_rounds outcome receipt chunks = 4
    ∧ (upload_chunks_with_retries outcome receipt chunks).map Prod.fst = chunks :=
  upload_loop_always_fail outcome receipt chunks hin hfail hne RETRY_ATTEMPTS 1

/-- Claim C5 witness: the amended budget at one concrete always-failing
chunk. -/
theorem upload_chunks_with_retries_budget_witness :
    upload_attempt_rounds (fun _ _ => some (.Network 5))
        [(7, (⟨[1]⟩, 2))] [⟨7⟩] = 4
    ∧ (upload_chunks_with_retries (fun _ _ => some (.Network 5))
        [(7, (⟨[1]⟩, 2))] [⟨7⟩]).map Prod.fst = [⟨7⟩] :=
  upload_chunks_with_retries_budget (fun _ _ => some (.Network 5))
    [(7, (⟨[1]⟩, 2))] [⟨7⟩] (by decide)
    (fun _ _ => Option.some_ne_none _) (by decide)

/-! ## Claim C7 -/

/-- Claim C7: an address whose quoting-peer count is at or below half
the close-group size is dropped by get_store_quotes with no error and no
entry (so it adds nothing to the total price), an address absent from
the StoreQuote is absent from the receipt, and a chunk whose name is
absent from the receipt is silently skipped by the upload loop — the
loop behaves as if the chunk were not in the batch at all. -/
theorem already_paid_short_circuit (cgs : Nat) (oracle : Nat → Nat) (addr : Nat)
    (raw : List (Nat × PaymentQuote))
    (rest : List (Nat × List (Nat × PaymentQuote)))
    (outcome : Nat → Chunk → Option PutError) (receipt : Receipt)
    (c : Chunk) (fuel n : Nat) (chunks : List Chunk)
    (hskip : raw.length ≤ cgs / 2) :
    get_store_quotes_loop cgs oracle ((addr, raw) :: rest)
      = get_store_quotes_loop cgs oracle rest
    ∧ (∀ sq, addr ∉ sq.map Prod.fst →
        alistGet (receipt_from_store_quotes sq) addr = none)
    ∧ (alistGet receipt c.name = none →
        upload_loop outcome receipt fuel (c :: chunks) n
          = upload_loop outcome receipt fuel chunks n) := by
  refine ⟨?_, ?_, ?_⟩
  · simp [get_store_quotes_loop, process_address, hskip]
  · intro sq
    induction sq with
    | nil => intro _; rfl
    | cons hd tl ih =>
      intro hmem
      have h1 : hd.1 ≠ addr := fun he => hmem (by
        rw [List.map_cons]
        exact he ▸ List.mem_cons_self _ _)
      have h2 : addr ∉ tl.map Prod.fst := fun hm => hmem (by
        rw [List.map_cons]
        exact List.mem_cons_of_mem _ hm)
      simp only [receipt_from_store_quotes, List.map_cons, alistGet, if_neg h1]
      simpa [receipt_from_store_quotes] using ih h2
  · intro hnone
    have hround : ∀ m, upload_round outcome receipt (c :: chunks) m
        = upload_round outcome receipt chunks m := by
      intro m
      simp [upload_round, List.filter_cons, hnone]
    cases fuel with
    | zero => simp only [upload_loop, hround]
    | succ f => simp only [upload_loop, hround]

/-- Claim C7 witness: a single-peer address (close-group size 5) is
skipped with no error, and an out-of-receipt chunk is skipped by the
upload loop. -/
theorem already_paid_short_circuit_witness :
    get_store_quotes_loop 5 (fun m => m) [(9, [(1, ⟨0, 0⟩)])] = .ok []
    ∧ upload_loop (fun _ _ => none) [] 3 [⟨9⟩] 1
      = upload_loop (fun _ _ => none) [] 3 [] 1 := by
  have h := already_paid_short_circuit 5 (fun m => m) 9 [(1, ⟨0, 0⟩)] []
    (fun _ _ => none) [] ⟨9⟩ 3 1 [] (by decide)
  exact ⟨h.1, h.2.2 (by decide)⟩

/-! ## Claim C8 -/

/-- The GetMissingData loop collects, past the accumulator, the first
not-already-held addresses up to the batch cap. -/
theorem missing_data_loop_eq (existing : List Nat) :
    ∀ (l acc : List Nat), acc.length < MAX_REPLICATION_BATCH_SIZE →
    missing_data_loop existing l acc
      = acc ++ (l.filter (fun a => decide (a ∉ existing))).take
          (MAX_REPLICATION_BATCH_SIZE - acc.length) := by
  intro l
  induction l with
  | nil =>
    intro acc h
    simp [missing_data_loop]
  | cons a rest ih =>
    intro acc h
    by_cases ha : a ∈ existing
    · rw [show missing_data_loop existing (a :: rest) acc
          = missing_data_loop existing rest acc from by
        simp [missing_data_loop, ha]]
      rw [ih acc h]
      simp [List.filter_cons, ha]
    · by_cases hl : acc.length + 1 = MAX_REPLICATION_BATCH_SIZE
      · rw [show missing_data_loop existing (a :: rest) acc = acc ++ [a] from by
          simp [missing_data_loop, ha, hl]]
        have h1 : MAX_REPLICATION_BATCH_SIZE - acc.length = 1 := by omega
        rw [h1]
        simp [List.filter_cons, ha]
      · rw [show missing_data_loop existing (a :: rest) acc
            = missing_data_loop existing rest (acc ++ [a]) from by
          simp [missing_data_loop, ha, hl]]
        have hlen2 : (acc ++ [a]).length < MAX_REPLICATION_BATCH_SIZE := by
          simp only [List.length_append, List.length_singleton]
          omega
        rw [ih (acc ++ [a]) hlen2]
        have hx : MAX_REPLICATION_BATCH_SIZE - acc.length
            = (MAX_REPLICATION_BATCH_SIZE - (acc ++ [a]).length) + 1 := by
          simp only [List.length_append, List.length_singleton]
          omega
        rw [hx]
        simp [List.filter_cons, ha, List.take_succ_cons]

/-- Claim C8 (counterexample): a local set of 26 fresh keys — well under
the claimed 500-entry cap — is not sent in one message: the reply batch
carries only 25 records. -/
theorem replication_batch_cap_counterexample :
    (get_missing_data_batch [] (List.range 26)).length = 25
    ∧ (List.range 26).length = 26
    ∧ (get_missing_data_batch [] (List.range 26)).length
      ≠ (List.range 26).length := by decide

/-- Claim C8 (amended): every GetMissingData reply batch is capped at
MAX_REPLICATION_BATCH_SIZE = 25 records; the batch is exactly the first
25 not-yet-held records, and once those are stored the next round's
batch pages on to the following 25. -/
theorem replication_batch_cap (existing data : List Nat) :
    (get_missing_data_batch existing data).length ≤ MAX_REPLICATION_BATCH_SIZE
    ∧ get_missing_data_batch existing data
        = (data.filter (fun a => decide (a ∉ existing))).take
            MAX_REPLICATION_BATCH_SIZE
    ∧ (data.Nodup →
        get_missing_data_batch (get_missing_data_batch [] data) data
          = (data.drop MAX_REPLICATION_BATCH_SIZE).take
              MAX_REPLICATION_BATCH_SIZE) := by
  have hchar : ∀ (ex dat : List Nat), get_missing_data_batch ex dat
      = (dat.filter (fun a => decide (a ∉ ex))).take MAX_REPLICATION_BATCH_SIZE := by
    intro ex dat
    have h := missing_data_loop_eq ex dat []
      (by simp [MAX_REPLICATION_BATCH_SIZE])
    simpa [get_missing_data_batch] using h
  refine ⟨?_, hchar existing data, ?_⟩
  · rw [hchar]
    simp [List.length_take]
  · intro hnodup
    rw [hchar, hchar]
    have hnil : data.filter (fun a => decide (a ∉ ([] : List Nat))) = data := by
      simp
    rw [hnil]
    have key : ∀ t d : List Nat, t ++ d = data → t.Disjoint d →
        data.filter (fun a => decide (a ∉ t)) = d := by
      intro t d htd hdisj
      conv_lhs => rw [← htd]
      rw [List.filter_append]
      have hleft : t.filter (fun a => decide (a ∉ t)) = [] := by
        rw [List.filter_eq_nil_iff]
        intro x hx
        simp [hx]
      have hright : d.filter (fun a => decide (a ∉ t)) = d := by
        rw [List.filter_eq_self]
        intro x hx
        simpa using fun hxt => hdisj hxt hx
      rw [hleft, hright, List.nil_append]
    have hnd := hnodup
    rw [← List.take_append_drop MAX_REPLICATION_BATCH_SIZE data,
      List.nodup_append] at hnd
    rw [key (data.take MAX_REPLICATION_BATCH_SIZE)
      (data.drop MAX_REPLICATION_BATCH_SIZE)
      (List.take_append_drop MAX_REPLICATION_BATCH_SIZE data) hnd.2.2]

/-- Claim C8 witness: the amended cap and paging at 30 fresh keys. -/
theorem replication_batch_cap_witness :
    (get_missing_data_batch [] (List.range 30)).length
      ≤ MAX_REPLICATION_BATCH_SIZE
    ∧ get_missing_data_batch (get_missing_data_batch [] (List.range 30))
        (List.range 30)
      = ((List.range 30).drop MAX_REPLICATION_BATCH_SIZE).take
          MAX_REPLICATION_BATCH_SIZE :=
  ⟨(replication_batch_cap [] (List.range 30)).1,
   (replication_batch_cap [] (List.range 30)).2.2 (by decide)⟩

/-! ## Claim C10 -/

/-- Claim C10: a proof of payment with an empty payee list makes
chunk_upload_with_payment fail immediately with PayeesMissing, issuing
no network put. -/
theorem chunk_upload_payees_missing (putResult : PutAction → Except Nat Unit)
    (chunk : Chunk) (payment : ProofOfPayment) (h : payment.payees = []) :
    chunk_upload_with_payment putResult chunk payment
      = ([], .error .PayeesMissing) := by
  simp [chunk_upload_with_payment, h]

/-- Claim C10 witness: the empty-payee failure at a concrete chunk. -/
theorem chunk_upload_payees_missing_witness :
    chunk_upload_with_payment (fun _ => .ok ()) ⟨5⟩ ⟨[]⟩
      = ([], .error .PayeesMissing) :=
  chunk_upload_payees_missing (fun _ => .ok ()) ⟨5⟩ ⟨[]⟩ rfl

end StableSet
